import Mathlib

/-!
Verification of the request-coordination and two-tier caching layer of
react-currency-localizer. The repository ships only documentation
(README) and example consumers, so every operation below is a shallow
embedding modelled from the specification's §3-§5 contracts: pure
functions become Lean functions, the two remote providers become
explicit oracles, the two caches become explicit state threaded through
each operation, and every remote call is counted explicitly so that
"no network call" claims are provable.
-/

namespace CurrencyLocalizer

instance {ε α : Type} [DecidableEq ε] [DecidableEq α] : DecidableEq (Except ε α) := fun a b =>
  match a, b with
  | .ok x, .ok y => if h : x = y then .isTrue (by rw [h]) else .isFalse (by simp [h])
  | .error x, .error y => if h : x = y then .isTrue (by rw [h]) else .isFalse (by simp [h])
  | .ok _, .error _ => .isFalse (by simp)
  | .error _, .ok _ => .isFalse (by simp)

/-- Modelled from the spec: the error taxonomy of §7 (kinds, not
implementation types). -/
inductive ConvError : Type
  | invalidPrice
  | malformedCurrencyCode
  | missingApiKey
  | malformedApiKey
  | geolocationFailure
  | unsupportedCurrency (code : String)
  | rateLimited (retryAfter : Option Nat)
  | rateProviderFailure
  deriving DecidableEq, Repr

/-- Modelled from the spec: ASCII alphabetic character test backing the
"3-letter alphabetic pattern" of §4.1. -/
def alphaChar (c : Char) : Bool :=
  (65 ≤ c.toNat && c.toNat ≤ 90) || (97 ≤ c.toNat && c.toNat ≤ 122)

/-- Modelled from the spec: whitespace characters removed by trimming
(space, tab, carriage return, newline). -/
def wsChar (c : Char) : Bool :=
  c.toNat == 32 || c.toNat == 9 || c.toNat == 13 || c.toNat == 10

/-- Drop leading and trailing whitespace from a character list. -/
def trimChars (l : List Char) : List Char :=
  ((l.dropWhile wsChar).reverse.dropWhile wsChar).reverse

/-- Modelled from the spec: "trims whitespace" (§4.1). -/
def wtrim (s : String) : String := ⟨trimChars s.data⟩

/-- Modelled from the spec: "upper-cases" (§4.1). -/
def upcase (s : String) : String := ⟨s.data.map Char.toUpper⟩

/-- Modelled from the spec: the canonical-form check of §4.1, a 3-letter
alphabetic pattern. -/
def isValidCode (t : String) : Bool :=
  t.data.length == 3 && t.data.all alphaChar

/-- Modelled from the spec: `normalize` (§4.1). Trims whitespace,
upper-cases, validates the 3-letter alphabetic pattern, and fails with
`MalformedCurrencyCode` otherwise. -/
def normalize (code : String) : Except ConvError String :=
  let t := upcase (wtrim code)
  if isValidCode t then .ok t else .error .malformedCurrencyCode

/-- Modelled from the spec: the rate provider's key shape constraint of
§4.2 ("fixed length, character set"): a fixed-length alphanumeric key. -/
def apiKeyLength : Nat := 24

/-- Modelled from the spec: alphanumeric character set for API keys. -/
def keyChar (c : Char) : Bool :=
  alphaChar c || (48 ≤ c.toNat && c.toNat ≤ 57)

/-- Modelled from the spec: `validate` for API keys (§4.2). Fails with
`MissingApiKey` on an empty or undefined key, `MalformedApiKey` when the
key violates the provider's shape constraints; side-effect free. -/
def validateApiKey (key : Option String) : Except ConvError String :=
  match key with
  | none => .error .missingApiKey
  | some k =>
    if k.data.length == 0 then .error .missingApiKey
    else if k.data.length == apiKeyLength && k.data.all keyChar then .ok k
    else .error .malformedApiKey

/-- Modelled from the spec: `LocationRecord` (§3), a currency code with
the timestamp at which geolocation resolved it. -/
structure LocationRecord : Type where
  currencyCode : String
  resolvedAt : Nat
  deriving DecidableEq, Repr

/-- Modelled from the spec: `RateRecord` (§3), keyed by the ordered
(base, target) pair. -/
structure RateRecord : Type where
  baseCurrency : String
  targetCurrency : String
  rate : ℚ
  resolvedAt : Nat
  deriving DecidableEq, Repr

/-- Modelled from the spec: the two shared mutable caches of §5 — the
persistent location cache (a single record under a fixed key) and the
in-memory rate cache keyed by (base, target). -/
structure CacheState : Type where
  locationCache : Option LocationRecord
  rateCache : List ((String × String) × RateRecord)
  deriving DecidableEq, Repr

/-- Cache state at first load: nothing persisted, nothing in memory. -/
def emptyCache : CacheState := ⟨none, []⟩

/-- Modelled from the spec: the geolocation provider's behaviour (§6) —
a structured response that may lack a usable currency field, or a
transport failure. -/
inductive GeoResponse : Type
  | ok (currencyField : Option String)
  | transportFail
  deriving DecidableEq, Repr

/-- Modelled from the spec: the exchange-rate provider's behaviour (§6)
— a mapping from currency code to rate, a rate-limit signal with an
optional retry-after hint, or a transport failure. -/
inductive RateResponse : Type
  | ok (rates : List (String × ℚ))
  | rateLimited (retryAfter : Option Nat)
  | transportFail
  deriving DecidableEq, Repr

/-- The external collaborators a request cycle can observe: one
geolocation outcome and one rate-provider outcome. -/
structure Env : Type where
  geo : GeoResponse
  rate : RateResponse
  deriving DecidableEq, Repr

/-- Modelled from the spec: 24-hour TTL of the persistent location
cache (§3), in milliseconds. -/
def locationTTL : Nat := 24 * 60 * 60 * 1000

/-- Modelled from the spec: 1-hour TTL of the in-memory rate cache
(§3), in milliseconds. -/
def rateTTL : Nat := 60 * 60 * 1000

/-- A cached record whose age is below the TTL is fresh. -/
def freshAt (resolvedAt now ttl : Nat) : Prop := now - resolvedAt < ttl

instance (resolvedAt now ttl : Nat) : Decidable (freshAt resolvedAt now ttl) :=
  inferInstanceAs (Decidable (_ < _))

/-- Modelled from the spec: the single remote geolocation lookup of
§4.3 step 2-3. Returns the outcome, the updated cache state, and the
number of remote geolocation calls made (always 1 here). On success the
provider's currency field is normalized and the stored record is
overwritten; on failure nothing is cached. -/
def remoteLocate (env : Env) (now : Nat) (st : CacheState) :
    Except ConvError LocationRecord × CacheState × Nat :=
  match env.geo with
  | .ok (some c) =>
    match normalize c with
    | .ok code => (.ok ⟨code, now⟩, { st with locationCache := some ⟨code, now⟩ }, 1)
    | .error _ => (.error .geolocationFailure, st, 1)
  | .ok none => (.error .geolocationFailure, st, 1)
  | .transportFail => (.error .geolocationFailure, st, 1)

/-- Modelled from the spec: `resolveLocation` (§4.3). Serves an
unexpired persistent record without any network call, otherwise issues
exactly one remote lookup. -/
def resolveLocation (env : Env) (now : Nat) (st : CacheState) :
    Except ConvError LocationRecord × CacheState × Nat :=
  match st.locationCache with
  | some lr =>
    if freshAt lr.resolvedAt now locationTTL then (.ok lr, st, 0)
    else remoteLocate env now st
  | none => remoteLocate env now st

/-- Look up the in-memory rate cache by the ordered (base, target) key. -/
def lookupRate (st : CacheState) (base target : String) : Option RateRecord :=
  (st.rateCache.find? (fun e => e.1 == (base, target))).map (·.2)

/-- Store a rate record under its (base, target) key, superseding any
prior entry for that key. -/
def storeRate (st : CacheState) (r : RateRecord) : CacheState :=
  { st with rateCache := ((r.baseCurrency, r.targetCurrency), r) ::
      st.rateCache.filter (fun e => e.1 != (r.baseCurrency, r.targetCurrency)) }

/-- Modelled from the spec: the remote exchange-rate lookup of §4.4
step 3-4. A response lacking the target among its supported rates is
`UnsupportedCurrency target`; quota exhaustion is `RateLimited`; any
other transport error is `RateProviderFailure`. Only a success writes
the cache. -/
def remoteRate (base target : String) (env : Env) (now : Nat) (st : CacheState) :
    Except ConvError RateRecord × CacheState × Nat :=
  match env.rate with
  | .ok rates =>
    match rates.find? (fun p => p.1 == target) with
    | some p => (.ok ⟨base, target, p.2, now⟩, storeRate st ⟨base, target, p.2, now⟩, 1)
    | none => (.error (.unsupportedCurrency target), st, 1)
  | .rateLimited ra => (.error (.rateLimited ra), st, 1)
  | .transportFail => (.error .rateProviderFailure, st, 1)

/-- Modelled from the spec: `resolveRate` (§4.4). Short-circuits with a
synthetic rate of 1 when base and target coincide, before any cache
lookup; then serves an unexpired in-memory record without a network
call; otherwise performs exactly one remote lookup. -/
def resolveRate (base target apiKey : String) (env : Env) (now : Nat) (st : CacheState) :
    Except ConvError RateRecord × CacheState × Nat :=
  if base == target then (.ok ⟨base, target, 1, now⟩, st, 0)
  else
    match lookupRate st base target with
    | some r =>
      if freshAt r.resolvedAt now rateTTL then (.ok r, st, 0)
      else remoteRate base target env now st
    | none => remoteRate base target env now st

/-- Modelled from the spec: the known zero-decimal currencies of §4.5
(rounding convention; the spec names JPY as the example and defers the
exact table to the ISO 4217 minor-unit list). -/
def zeroDecimalCurrencies : List String :=
  ["BIF", "CLP", "DJF", "GNF", "ISK", "JPY", "KMF", "KRW", "PYG",
   "RWF", "UGX", "VND", "VUV", "XAF", "XOF", "XPF"]

/-- Modelled from the spec: rounding to the smallest standard
subdivision of the target currency (§4.5): whole units for zero-decimal
currencies, 2 decimal places otherwise. -/
def roundPrice (currency : String) (q : ℚ) : ℚ :=
  if zeroDecimalCurrencies.contains currency then ((round q : ℤ) : ℚ)
  else ((round (q * 100) : ℤ) : ℚ) / 100

/-- Modelled from the spec: the success tuple of a `ConversionOutcome`
(§3). -/
structure ConversionSuccess : Type where
  convertedPrice : ℚ
  localCurrency : String
  baseCurrency : String
  exchangeRate : ℚ
  deriving DecidableEq, Repr

/-- Modelled from the spec: the coordinator's input record (§4.5);
`apiKey` is `none` when undefined. -/
structure ConversionRequest : Type where
  basePrice : ℚ
  baseCurrency : String
  apiKey : Option String
  manualCurrency : Option String
  deriving DecidableEq, Repr

/-- Outcome of one coordinator invocation together with the cache state
it leaves behind and the number of remote geolocation and rate calls it
performed. -/
structure ConvertResult : Type where
  outcome : Except ConvError ConversionSuccess
  state : CacheState
  geoCalls : Nat
  rateCalls : Nat
  deriving DecidableEq, Repr

/-- Modelled from the spec: the `ValidatingInput` state of §4.5 —
normalizes `baseCurrency` and `manualCurrency`, validates the API key,
and validates that the price is non-negative (finiteness is inherent to
ℚ), in the order the spec lists them. -/
def validateInput (req : ConversionRequest) :
    Except ConvError (String × Option String × String) := do
  let base ← normalize req.baseCurrency
  let manual ← match req.manualCurrency with
    | none => pure none
    | some m => (normalize m).map some
  let key ← validateApiKey req.apiKey
  if req.basePrice < 0 then .error .invalidPrice
  else .ok (base, manual, key)

/-- Modelled from the spec: the `ResolvingRate` and `Succeeded` states
of §4.5, once the target currency is known. -/
def convertWithTarget (price : ℚ) (base target key : String) (env : Env) (now : Nat)
    (st : CacheState) (geoCalls : Nat) : ConvertResult :=
  match resolveRate base target key env now st with
  | (.ok rr, st2, rc) =>
    ⟨.ok ⟨roundPrice target (price * rr.rate), target, base, rr.rate⟩, st2, geoCalls, rc⟩
  | (.error e, st2, rc) => ⟨.error e, st2, geoCalls, rc⟩

/-- Modelled from the spec: `convert`, the Request Coordinator's state
machine (§4.5): validation, then location resolution (skipped under a
manual override), then rate resolution, then the rounded success tuple. -/
def convert (req : ConversionRequest) (env : Env) (now : Nat) (st : CacheState) :
    ConvertResult :=
  match validateInput req with
  | .error e => ⟨.error e, st, 0, 0⟩
  | .ok (base, manual, key) =>
    match manual with
    | some target => convertWithTarget req.basePrice base target key env now st 0
    | none =>
      match resolveLocation env now st with
      | (.ok lr, st1, g) => convertWithTarget req.basePrice base lr.currencyCode key env now st1 g
      | (.error e, st1, g) => ⟨.error e, st1, g, 0⟩

/-- Modelled from the spec: the Conversion Facade's lifecycle phase —
either a cycle is still in flight or the coordinator's outcome has
settled. -/
inductive FacadePhase : Type
  | loading
  | settled
  deriving DecidableEq, Repr

/-- Modelled from the spec: the facade's output record (§4.6 and the
README's Returns table): nullable converted price, local currency and
exchange rate, the base currency, a loading flag and an error slot. -/
structure FacadeOutput : Type where
  convertedPrice : Option ℚ
  localCurrency : Option String
  baseCurrency : String
  exchangeRate : Option ℚ
  isLoading : Bool
  error : Option ConvError
  deriving DecidableEq, Repr

/-- Modelled from the spec: `useCurrencyConverter` (§4.6), exposing the
coordinator's current state: all data fields null while loading, the
success tuple's fields exactly on a settled success, and the typed
error unmodified on a settled failure. -/
def useCurrencyConverter (phase : FacadePhase) (req : ConversionRequest) (env : Env)
    (now : Nat) (st : CacheState) : FacadeOutput :=
  match phase with
  | .loading => ⟨none, none, req.baseCurrency, none, true, none⟩
  | .settled =>
    match (convert req env now st).outcome with
    | .ok s => ⟨some s.convertedPrice, some s.localCurrency, s.baseCurrency,
        some s.exchangeRate, false, none⟩
    | .error e => ⟨none, none, req.baseCurrency, none, false, some e⟩

/-- Configuration shared by a batch of identical coordinator
invocations: the external collaborators, the cycle's timestamp, the
normalized base currency and the validated price. -/
structure BatchCfg : Type where
  env : Env
  now : Nat
  base : String
  price : ℚ
  deriving Repr

/-- The value a remote geolocation call resolves to (first load, so the
persistent cache is empty and the call's cache write is irrelevant to
the outcome). -/
def geoRemoteResult (cfg : BatchCfg) : Except ConvError LocationRecord :=
  (remoteLocate cfg.env cfg.now emptyCache).1

/-- The value a remote rate call for the given target resolves to. -/
def rateRemoteResult (cfg : BatchCfg) (target : String) : Except ConvError RateRecord :=
  (remoteRate cfg.base target cfg.env cfg.now emptyCache).1

/-- Assemble a task's terminal outcome from the shared rate result
(§4.5 `Succeeded`/`Failed`). -/
def finishWith (cfg : BatchCfg) (target : String) (r : Except ConvError RateRecord) :
    Except ConvError ConversionSuccess :=
  match r with
  | .ok rr => .ok ⟨roundPrice target (cfg.price * rr.rate), target, cfg.base, rr.rate⟩
  | .error e => .error e

/-- Modelled from the spec: the phases of one coordinator invocation in
the cooperative scheduling model of §5. The two suspension points are
exactly the waits on the shared geolocation and rate handles. -/
inductive TPhase : Type
  | needLoc
  | waitLoc
  | needRate (target : String)
  | waitRate (target : String)
  | finished (o : Except ConvError ConversionSuccess)
  deriving DecidableEq, Repr

/-- What a task does with the shared geolocation result: fail, or
short-circuit the rate lookup when the resolved target equals the base
(§4.4 step 1), or proceed to rate resolution. -/
def consumeGeo (cfg : BatchCfg) (r : Except ConvError LocationRecord) : TPhase :=
  match r with
  | .error e => .finished (.error e)
  | .ok lr =>
    if lr.currencyCode == cfg.base then
      .finished (.ok ⟨roundPrice cfg.base (cfg.price * 1), cfg.base, cfg.base, 1⟩)
    else .needRate lr.currencyCode

/-- Modelled from the spec: the single-flight pending-result handle for
the geolocation lookup (§5): untouched, in flight, or resolved. -/
inductive GeoH : Type
  | notStarted
  | inFlight
  | done (r : Except ConvError LocationRecord)
  deriving DecidableEq, Repr

/-- Modelled from the spec: the single-flight pending-result handle for
the rate lookup, remembering the target it was issued for. -/
inductive RateH : Type
  | notStarted
  | inFlight (target : String)
  | done (target : String) (r : Except ConvError RateRecord)
  deriving DecidableEq, Repr

/-- The shared coordinator state of a batch: the two handles and the
remote-call counters. -/
structure Globals : Type where
  geoH : GeoH
  rateH : RateH
  geoCalls : Nat
  rateCalls : Nat
  deriving DecidableEq, Repr

/-- One batch of concurrent invocations: each task's phase plus the
shared state. -/
structure BatchState : Type where
  tasks : List TPhase
  g : Globals
  deriving DecidableEq, Repr

/-- Modelled from the spec: one cooperative step of a single task. A
task needing the location attaches to the geolocation handle, issuing
the remote call only if the handle is untouched; consuming a resolved
handle either finishes (failure or short-circuit) or moves on to the
rate handle, which is shared the same way. -/
def stepTask (cfg : BatchCfg) (p : TPhase) (g : Globals) : TPhase × Globals :=
  match p with
  | .needLoc =>
    match g.geoH with
    | .notStarted => (.waitLoc, { g with geoH := .inFlight, geoCalls := g.geoCalls + 1 })
    | _ => (.waitLoc, g)
  | .waitLoc =>
    match g.geoH with
    | .done r => (consumeGeo cfg r, g)
    | _ => (.waitLoc, g)
  | .needRate t =>
    match g.rateH with
    | .notStarted => (.waitRate t, { g with rateH := .inFlight t, rateCalls := g.rateCalls + 1 })
    | _ => (.waitRate t, g)
  | .waitRate t =>
    match g.rateH with
    | .done _ r => (.finished (finishWith cfg t r), g)
    | _ => (.waitRate t, g)
  | .finished o => (.finished o, g)

/-- Scheduler events: advance one task, or let an in-flight remote call
complete. -/
inductive Ev : Type
  | step (i : Nat)
  | geoDone
  | rateDone
  deriving DecidableEq, Repr

/-- Modelled from the spec: the effect of one scheduler event on a
batch. Remote completions resolve the corresponding handle exactly once
(they are no-ops unless the handle is in flight). -/
def applyEv (cfg : BatchCfg) (e : Ev) (s : BatchState) : BatchState :=
  match e with
  | .step i =>
    match s.tasks.get? i with
    | some p =>
      let x := stepTask cfg p s.g
      ⟨s.tasks.set i x.1, x.2⟩
    | none => s
  | .geoDone =>
    match s.g.geoH with
    | .inFlight => ⟨s.tasks, { s.g with geoH := .done (geoRemoteResult cfg) }⟩
    | _ => s
  | .rateDone =>
    match s.g.rateH with
    | .inFlight t => ⟨s.tasks, { s.g with rateH := .done t (rateRemoteResult cfg t) }⟩
    | _ => s

/-- Run a schedule (an arbitrary interleaving of events) over a batch. -/
def runSched (cfg : BatchCfg) (es : List Ev) (s : BatchState) : BatchState :=
  es.foldl (fun s e => applyEv cfg e s) s

/-- A batch of n identical invocations, all issued before any remote
call resolves. -/
def initBatch (n : Nat) : BatchState :=
  ⟨List.replicate n .needLoc, ⟨.notStarted, .notStarted, 0, 0⟩⟩

/-- Whether a task has reached its terminal outcome. -/
def TPhase.isFinished : TPhase → Bool
  | .finished _ => true
  | _ => false

/-- The deterministic outcome every task of a batch must observe: what
the shared geolocation result dictates, followed (unless failed or
short-circuited) by what the shared rate result dictates. -/
def expectedOutcome (cfg : BatchCfg) : Except ConvError ConversionSuccess :=
  match geoRemoteResult cfg with
  | .error e => .error e
  | .ok lr =>
    if lr.currencyCode == cfg.base then
      .ok ⟨roundPrice cfg.base (cfg.price * 1), cfg.base, cfg.base, 1⟩
    else finishWith cfg lr.currencyCode (rateRemoteResult cfg lr.currencyCode)

/-- Number of geolocation calls a handle state accounts for: one as
soon as the handle has ever been started. -/
def countG : GeoH → Nat
  | .notStarted => 0
  | .inFlight => 1
  | .done _ => 1

/-- Number of rate calls a handle state accounts for. -/
def countR : RateH → Nat
  | .notStarted => 0
  | .inFlight _ => 1
  | .done _ _ => 1

/-- The rate handle is only ever issued for the target dictated by the
shared geolocation result, and only when that target differs from the
base currency. -/
def rateTargetOK (cfg : BatchCfg) (t : String) : Prop :=
  ∃ lr, geoRemoteResult cfg = .ok lr ∧ t = lr.currencyCode ∧ (lr.currencyCode == cfg.base) = false

/-- Per-task invariant of the batch machine, relative to the shared
state: waiting tasks have started the corresponding handle, targets
agree with the shared geolocation result, and finished tasks carry the
deterministic expected outcome. -/
def TI (cfg : BatchCfg) (g : Globals) : TPhase → Prop
  | .needLoc => True
  | .waitLoc => g.geoH ≠ .notStarted
  | .needRate t => rateTargetOK cfg t ∧ g.geoH ≠ .notStarted
  | .waitRate t => rateTargetOK cfg t ∧ g.geoH ≠ .notStarted ∧ g.rateH ≠ .notStarted
  | .finished o => o = expectedOutcome cfg ∧ g.geoH ≠ .notStarted ∧
      (∀ lr, geoRemoteResult cfg = .ok lr → (lr.currencyCode == cfg.base) = false →
        g.rateH ≠ .notStarted)

/-- Global invariant of the batch machine: counters track the handles,
resolved handles carry exactly the remote results, and every task
satisfies its per-task invariant. -/
structure Inv (cfg : BatchCfg) (s : BatchState) : Prop where
  geoCount : s.g.geoCalls = countG s.g.geoH
  rateCount : s.g.rateCalls = countR s.g.rateH
  geoVal : ∀ r, s.g.geoH = .done r → r = geoRemoteResult cfg
  rateFlight : ∀ t, s.g.rateH = .inFlight t → rateTargetOK cfg t
  rateVal : ∀ t r, s.g.rateH = .done t r → rateTargetOK cfg t ∧ r = rateRemoteResult cfg t
  tasksOK : ∀ p ∈ s.tasks, TI cfg s.g p

/-- Concrete batch configuration used as the C1 witness: base USD,
geolocation resolving EUR, one EUR rate on offer. -/
def cfgW : BatchCfg := ⟨⟨.ok (some "eur"), .ok [("EUR", 92/100)]⟩, 0, "USD", 9999/100⟩

/-- A complete schedule for two concurrent invocations of `cfgW`. -/
def schedW : List Ev :=
  [.step 0, .step 1, .geoDone, .step 0, .step 0, .rateDone, .step 0, .step 1, .step 1, .step 1]

/-- Concrete batch configuration refuting C1 as stated: geolocation
resolves the base currency itself, so the rate resolver short-circuits
and no rate call ever happens. -/
def cfgC1x : BatchCfg := ⟨⟨.ok (some "usd"), .transportFail⟩, 0, "USD", 5⟩

/-- A complete schedule for two concurrent invocations of `cfgC1x`. -/
def schedC1x : List Ev := [.step 0, .step 1, .geoDone, .step 0, .step 1]

/-- A syntactically valid exchange-rate API key (24 alphanumerics). -/
def demoKey : String := "abcdefghijklmnopqrstuvwx"

/-- The request of the spec's §8 conversion scenario. -/
def reqC2 : ConversionRequest := ⟨9999/100, "usd", some demoKey, some "EUR"⟩

/-- The provider behaviour of the spec's §8 conversion scenario: the
geolocation provider is never needed, the rate provider offers
EUR at 0.92. -/
def envC2 : Env := ⟨.transportFail, .ok [("EUR", 92/100)]⟩

/-- The request of the spec's §8 unsupported-currency scenario. -/
def reqC7 : ConversionRequest := ⟨0, "USD", some demoKey, none⟩

/-- Run the same conversion request three times sequentially at the
given timestamps, threading the cache left behind by each run into the
next, starting cold. -/
def convertThrice (req : ConversionRequest) (env : Env) (t0 t1 t2 : Nat) :
    ConvertResult × ConvertResult × ConvertResult :=
  let r1 := convert req env t0 emptyCache
  let r2 := convert req env t1 r1.state
  let r3 := convert req env t2 r2.state
  (r1, r2, r3)

/-- Whether a conversion outcome is a success. -/
def outcomeOk : Except ConvError ConversionSuccess → Bool
  | .ok _ => true
  | .error _ => false

lemma TI_mono {cfg : BatchCfg} {g g' : Globals}
    (hg : g.geoH ≠ .notStarted → g'.geoH ≠ .notStarted)
    (hr : g.rateH ≠ .notStarted → g'.rateH ≠ .notStarted) :
    ∀ p : TPhase, TI cfg g p → TI cfg g' p := by
  intro p h
  cases p with
  | needLoc => trivial
  | waitLoc => exact hg h
  | needRate t => exact ⟨h.1, hg h.2⟩
  | waitRate t => exact ⟨h.1, hg h.2.1, hr h.2.2⟩
  | finished o => exact ⟨h.1, hg h.2.1, fun lr he hne => hr (h.2.2 lr he hne)⟩

lemma inv_initBatch (cfg : BatchCfg) (n : Nat) : Inv cfg (initBatch n) := by
  refine ⟨rfl, rfl, ?_, ?_, ?_, ?_⟩
  · intro r h; simp [initBatch] at h
  · intro t h; simp [initBatch] at h
  · intro t r h; simp [initBatch] at h
  · intro p hp
    rw [List.eq_of_mem_replicate hp]
    trivial

lemma expectedOutcome_err {cfg : BatchCfg} {e : ConvError}
    (hge : geoRemoteResult cfg = .error e) : expectedOutcome cfg = .error e := by
  unfold expectedOutcome; rw [hge]

lemma expectedOutcome_short {cfg : BatchCfg} {lr : LocationRecord}
    (hge : geoRemoteResult cfg = .ok lr) (heq : (lr.currencyCode == cfg.base) = true) :
    expectedOutcome cfg =
      .ok ⟨roundPrice cfg.base (cfg.price * 1), cfg.base, cfg.base, 1⟩ := by
  unfold expectedOutcome; rw [hge]; simp [heq]

lemma expectedOutcome_rate {cfg : BatchCfg} {lr : LocationRecord}
    (hge : geoRemoteResult cfg = .ok lr) (hne : (lr.currencyCode == cfg.base) = false) :
    expectedOutcome cfg =
      finishWith cfg lr.currencyCode (rateRemoteResult cfg lr.currencyCode) := by
  unfold expectedOutcome; rw [hge]; simp [hne]

lemma inv_applyEv (cfg : BatchCfg) (e : Ev) (s : BatchState) (h : Inv cfg s) :
    Inv cfg (applyEv cfg e s) := by
  cases e with
  | geoDone =>
    cases hG : s.g.geoH with
    | notStarted => simp only [applyEv, hG]; exact h
    | done r => simp only [applyEv, hG]; exact h
    | inFlight =>
      simp only [applyEv, hG]
      refine ⟨?_, h.rateCount, ?_, h.rateFlight, h.rateVal, ?_⟩
      · have hc := h.geoCount; rw [hG] at hc; exact hc
      · intro r hr; exact (GeoH.done.inj hr).symm
      · intro p hp
        refine TI_mono (g := s.g) ?_ ?_ p (h.tasksOK p hp)
        · intro _ hc
          exact GeoH.noConfusion hc
        · exact fun a => a
  | rateDone =>
    cases hR : s.g.rateH with
    | notStarted => simp only [applyEv, hR]; exact h
    | done t r => simp only [applyEv, hR]; exact h
    | inFlight t =>
      simp only [applyEv, hR]
      refine ⟨h.geoCount, ?_, h.geoVal, ?_, ?_, ?_⟩
      · have hc := h.rateCount; rw [hR] at hc; exact hc
      · intro t' ht'; exact RateH.noConfusion ht'
      · intro t' r' ht'
        have h1 := RateH.done.inj ht'
        refine ⟨h1.1 ▸ h.rateFlight t hR, ?_⟩
        rw [← h1.1, ← h1.2]
      · intro p hp
        refine TI_mono (g := s.g) ?_ ?_ p (h.tasksOK p hp)
        · exact fun a => a
        · intro _ hc
          exact RateH.noConfusion hc
  | step i =>
    cases hp : s.tasks.get? i with
    | none => simp only [applyEv, hp]; exact h
    | some p =>
      have hpm : p ∈ s.tasks := List.get?_mem hp
      have hTI := h.tasksOK p hpm
      simp only [applyEv, hp]
      cases p with
      | needLoc =>
        cases hG : s.g.geoH with
        | notStarted =>
          simp only [stepTask, hG]
          refine ⟨?_, h.rateCount, ?_, h.rateFlight, h.rateVal, ?_⟩
          · show s.g.geoCalls + 1 = countG .inFlight
            have hc := h.geoCount; rw [hG] at hc
            simp only [countG] at hc ⊢
            omega
          · intro r hr; exact GeoH.noConfusion hr
          · intro q hq
            rcases List.mem_or_eq_of_mem_set hq with hq | hq
            · refine TI_mono (g := s.g) ?_ ?_ q (h.tasksOK q hq)
              · intro _ hc
                exact GeoH.noConfusion hc
              · exact fun a => a
            · subst hq
              exact fun hc => GeoH.noConfusion hc
        | inFlight =>
          simp only [stepTask, hG]
          refine ⟨h.geoCount, h.rateCount, h.geoVal, h.rateFlight, h.rateVal, ?_⟩
          intro q hq
          rcases List.mem_or_eq_of_mem_set hq with hq | hq
          · exact h.tasksOK q hq
          · subst hq; simp [TI, hG]
        | done r =>
          simp only [stepTask, hG]
          refine ⟨h.geoCount, h.rateCount, h.geoVal, h.rateFlight, h.rateVal, ?_⟩
          intro q hq
          rcases List.mem_or_eq_of_mem_set hq with hq | hq
          · exact h.tasksOK q hq
          · subst hq; simp [TI, hG]
      | waitLoc =>
        cases hG : s.g.geoH with
        | notStarted => exact absurd hG hTI
        | inFlight =>
          simp only [stepTask, hG]
          refine ⟨h.geoCount, h.rateCount, h.geoVal, h.rateFlight, h.rateVal, ?_⟩
          intro q hq
          rcases List.mem_or_eq_of_mem_set hq with hq | hq
          · exact h.tasksOK q hq
          · subst hq; simp [TI, hG]
        | done r =>
          simp only [stepTask, hG]
          refine ⟨h.geoCount, h.rateCount, h.geoVal, h.rateFlight, h.rateVal, ?_⟩
          intro q hq
          rcases List.mem_or_eq_of_mem_set hq with hq | hq
          · exact h.tasksOK q hq
          · subst hq
            have hr : r = geoRemoteResult cfg := h.geoVal r hG
            cases r with
            | error e =>
              simp only [consumeGeo, TI]
              refine ⟨(expectedOutcome_err hr.symm).symm, by simp [hG], ?_⟩
              intro lr he _
              rw [← hr] at he
              exact absurd he (by simp)
            | ok lr =>
              simp only [consumeGeo]
              cases hb : lr.currencyCode == cfg.base with
              | true =>
                rw [if_pos rfl]
                simp only [TI]
                refine ⟨(expectedOutcome_short hr.symm hb).symm, by simp [hG], ?_⟩
                intro lr' he hne
                rw [← hr] at he
                rw [← Except.ok.inj he] at hne
                rw [hb] at hne
                simp at hne
              | false =>
                rw [if_neg (by simp)]
                simp only [TI]
                exact ⟨⟨lr, hr.symm, rfl, hb⟩, by simp [hG]⟩
      | needRate t =>
        cases hR : s.g.rateH with
        | notStarted =>
          simp only [stepTask, hR]
          refine ⟨h.geoCount, ?_, h.geoVal, ?_, ?_, ?_⟩
          · show s.g.rateCalls + 1 = countR (.inFlight t)
            have hc := h.rateCount; rw [hR] at hc
            simp only [countR] at hc ⊢
            omega
          · intro t' ht'
            rw [← RateH.inFlight.inj ht']
            exact hTI.1
          · intro t' r' ht'; exact RateH.noConfusion ht'
          · intro q hq
            rcases List.mem_or_eq_of_mem_set hq with hq | hq
            · refine TI_mono (g := s.g) ?_ ?_ q (h.tasksOK q hq)
              · exact fun a => a
              · intro _ hc
                exact RateH.noConfusion hc
            · subst hq; exact ⟨hTI.1, hTI.2, fun hc => RateH.noConfusion hc⟩
        | inFlight t' =>
          simp only [stepTask, hR]
          refine ⟨h.geoCount, h.rateCount, h.geoVal, h.rateFlight, h.rateVal, ?_⟩
          intro q hq
          rcases List.mem_or_eq_of_mem_set hq with hq | hq
          · exact h.tasksOK q hq
          · subst hq; exact ⟨hTI.1, hTI.2, by simp [hR]⟩
        | done t' r' =>
          simp only [stepTask, hR]
          refine ⟨h.geoCount, h.rateCount, h.geoVal, h.rateFlight, h.rateVal, ?_⟩
          intro q hq
          rcases List.mem_or_eq_of_mem_set hq with hq | hq
          · exact h.tasksOK q hq
          · subst hq; exact ⟨hTI.1, hTI.2, by simp [hR]⟩
      | waitRate t =>
        cases hR : s.g.rateH with
        | notStarted => exact absurd hR hTI.2.2
        | inFlight t' =>
          simp only [stepTask, hR]
          refine ⟨h.geoCount, h.rateCount, h.geoVal, h.rateFlight, h.rateVal, ?_⟩
          intro q hq
          rcases List.mem_or_eq_of_mem_set hq with hq | hq
          · exact h.tasksOK q hq
          · subst hq; exact hTI
        | done t' r' =>
          simp only [stepTask, hR]
          refine ⟨h.geoCount, h.rateCount, h.geoVal, h.rateFlight, h.rateVal, ?_⟩
          intro q hq
          rcases List.mem_or_eq_of_mem_set hq with hq | hq
          · exact h.tasksOK q hq
          · subst hq
            have hv := h.rateVal t' r' hR
            obtain ⟨lr, hge, hteq, hne⟩ := hTI.1
            obtain ⟨lr', hge', hteq', hne'⟩ := hv.1
            have hlr : lr = lr' := by
              rw [hge] at hge'; exact Except.ok.inj hge'
            have htt : t = t' := by rw [hteq, hteq', hlr]
            simp only [TI]
            refine ⟨?_, hTI.2.1, by simp [hR]⟩
            rw [expectedOutcome_rate hge hne, ← hteq, hv.2, htt]
      | finished o =>
        simp only [stepTask]
        refine ⟨h.geoCount, h.rateCount, h.geoVal, h.rateFlight, h.rateVal, ?_⟩
        intro q hq
        rcases List.mem_or_eq_of_mem_set hq with hq | hq
        · exact h.tasksOK q hq
        · subst hq; exact hTI

lemma inv_runSched (cfg : BatchCfg) (es : List Ev) (s : BatchState) (h : Inv cfg s) :
    Inv cfg (runSched cfg es s) := by
  induction es generalizing s with
  | nil => exact h
  | cons e es ih => exact ih _ (inv_applyEv cfg e s h)

lemma length_applyEv (cfg : BatchCfg) (e : Ev) (s : BatchState) :
    (applyEv cfg e s).tasks.length = s.tasks.length := by
  cases e with
  | step i =>
    cases hp : s.tasks.get? i with
    | none => simp only [applyEv, hp]
    | some p => simp only [applyEv, hp]; exact List.length_set s.tasks i _
  | geoDone => cases hG : s.g.geoH <;> simp only [applyEv, hG]
  | rateDone => cases hR : s.g.rateH <;> simp only [applyEv, hR]

lemma length_runSched (cfg : BatchCfg) (es : List Ev) (s : BatchState) :
    (runSched cfg es s).tasks.length = s.tasks.length := by
  induction es generalizing s with
  | nil => rfl
  | cons e es ih =>
    have hstep : runSched cfg (e :: es) s = runSched cfg es (applyEv cfg e s) := rfl
    rw [hstep, ih (applyEv cfg e s), length_applyEv]

lemma countG_ne (x : GeoH) (h : x ≠ .notStarted) : countG x = 1 := by
  cases x with
  | notStarted => exact absurd rfl h
  | inFlight => rfl
  | done r => rfl

lemma countR_ne (x : RateH) (h : x ≠ .notStarted) : countR x = 1 := by
  cases x with
  | notStarted => exact absurd rfl h
  | inFlight t => rfl
  | done t r => rfl

lemma remoteRate_fst (b t : String) (env : Env) (now : Nat) (st st' : CacheState) :
    (remoteRate b t env now st).1 = (remoteRate b t env now st').1 := by
  unfold remoteRate
  cases env.rate with
  | ok rates =>
    cases hf : rates.find? (fun p => p.1 == t) with
    | none => simp only [hf]
    | some p => simp only [hf]
  | rateLimited ra => rfl
  | transportFail => rfl

lemma convertWithTarget_outcome (price : ℚ) (b t k : String) (env : Env) (now : Nat)
    (st : CacheState) (g : Nat) :
    (convertWithTarget price b t k env now st g).outcome =
      finishWith ⟨env, now, b, price⟩ t (resolveRate b t k env now st).1 := by
  unfold convertWithTarget finishWith
  rcases hrr : resolveRate b t k env now st with ⟨r, st2, rc⟩
  cases r <;> rfl

lemma expectedOutcome_eq_convert (cfg : BatchCfg) (req : ConversionRequest) (key : String)
    (hv : validateInput req = .ok (cfg.base, none, key))
    (hp : req.basePrice = cfg.price) :
    expectedOutcome cfg = (convert req cfg.env cfg.now emptyCache).outcome := by
  simp only [convert, hv]
  cases hg : cfg.env.geo with
  | transportFail =>
    have h1 : remoteLocate cfg.env cfg.now emptyCache =
        (.error .geolocationFailure, emptyCache, 1) := by
      simp only [remoteLocate, hg]
    have h2 : geoRemoteResult cfg = .error .geolocationFailure := by
      unfold geoRemoteResult; rw [h1]
    have hl : resolveLocation cfg.env cfg.now emptyCache =
        remoteLocate cfg.env cfg.now emptyCache := rfl
    rw [hl, h1, expectedOutcome_err h2]
  | ok copt =>
    cases copt with
    | none =>
      have h1 : remoteLocate cfg.env cfg.now emptyCache =
          (.error .geolocationFailure, emptyCache, 1) := by
        simp only [remoteLocate, hg]
      have h2 : geoRemoteResult cfg = .error .geolocationFailure := by
        unfold geoRemoteResult; rw [h1]
      have hl : resolveLocation cfg.env cfg.now emptyCache =
          remoteLocate cfg.env cfg.now emptyCache := rfl
      rw [hl, h1, expectedOutcome_err h2]
    | some c =>
      cases hn : normalize c with
      | error e =>
        have h1 : remoteLocate cfg.env cfg.now emptyCache =
            (.error .geolocationFailure, emptyCache, 1) := by
          simp only [remoteLocate, hg, hn]
        have h2 : geoRemoteResult cfg = .error .geolocationFailure := by
          unfold geoRemoteResult; rw [h1]
        have hl : resolveLocation cfg.env cfg.now emptyCache =
            remoteLocate cfg.env cfg.now emptyCache := rfl
        rw [hl, h1, expectedOutcome_err h2]
      | ok code =>
        have h1 : remoteLocate cfg.env cfg.now emptyCache =
            (.ok ⟨code, cfg.now⟩, ⟨some ⟨code, cfg.now⟩, []⟩, 1) := by
          simp only [remoteLocate, hg, hn, emptyCache]
        have hge : geoRemoteResult cfg = .ok ⟨code, cfg.now⟩ := by
          unfold geoRemoteResult; rw [h1]
        have hl : resolveLocation cfg.env cfg.now emptyCache =
            remoteLocate cfg.env cfg.now emptyCache := rfl
        rw [hl, h1]
        rw [convertWithTarget_outcome]
        by_cases hbc : cfg.base = code
        · have h3 : resolveRate cfg.base code key cfg.env cfg.now ⟨some ⟨code, cfg.now⟩, []⟩ =
              (.ok ⟨cfg.base, code, 1, cfg.now⟩, ⟨some ⟨code, cfg.now⟩, []⟩, 0) := by
            unfold resolveRate
            rw [if_pos (by simp [hbc])]
          rw [h3, expectedOutcome_short hge (by simp [hbc])]
          unfold finishWith
          rw [hp, ← hbc]
        · have h3 : resolveRate cfg.base code key cfg.env cfg.now ⟨some ⟨code, cfg.now⟩, []⟩ =
              remoteRate cfg.base code cfg.env cfg.now ⟨some ⟨code, cfg.now⟩, []⟩ := by
            unfold resolveRate
            rw [if_neg (by simp [hbc])]
            rfl
          rw [h3]
          have hne : (LocationRecord.currencyCode ⟨code, cfg.now⟩ == cfg.base) = false := by
            simp only [beq_eq_false_iff_ne]
            exact fun hcc => hbc hcc.symm
          rw [expectedOutcome_rate hge hne, hp,
            remoteRate_fst cfg.base code cfg.env cfg.now ⟨some ⟨code, cfg.now⟩, []⟩ emptyCache]
          rfl

example : normalize " usd " = .ok "USD" := by decide

example : normalize "Eur" = .ok "EUR" := by decide

example : normalize "usdd" = .error .malformedCurrencyCode := by decide

example : validateApiKey (some "") = .error .missingApiKey := by decide

example : validateApiKey none = .error .missingApiKey := by decide

example : validateApiKey (some "abcdefghijklmnopqrstuvwx") = .ok "abcdefghijklmnopqrstuvwx" := by decide

/-- C1 (amended): for every batch of N ≥ 1 coordinator invocations with
identical normalized inputs issued concurrently before any resolves,
under every scheduler interleaving that completes all of them, exactly
one remote geolocation call occurs, at most one remote rate call occurs
— exactly one when geolocation succeeds and resolves a target different
from the base currency — and every invocation observes the same
`ConversionOutcome`, namely the outcome a single sequential `convert`
on a cold cache produces. -/
theorem c1_concurrent_dedup (cfg : BatchCfg) (n : Nat) (hn : 0 < n) (es : List Ev)
    (hfin : ((runSched cfg es (initBatch n)).tasks.all TPhase.isFinished) = true) :
    (runSched cfg es (initBatch n)).g.geoCalls = 1 ∧
    (runSched cfg es (initBatch n)).g.rateCalls ≤ 1 ∧
    (∀ lr, geoRemoteResult cfg = .ok lr → (lr.currencyCode == cfg.base) = false →
      (runSched cfg es (initBatch n)).g.rateCalls = 1) ∧
    (∀ o, TPhase.finished o ∈ (runSched cfg es (initBatch n)).tasks →
      o = expectedOutcome cfg) ∧
    (∀ req key, validateInput req = .ok (cfg.base, none, key) → req.basePrice = cfg.price →
      expectedOutcome cfg = (convert req cfg.env cfg.now emptyCache).outcome) := by
  have hInv := inv_runSched cfg es (initBatch n) (inv_initBatch cfg n)
  set sf := runSched cfg es (initBatch n) with hsf
  have hlen : sf.tasks.length = n := by
    rw [hsf, length_runSched]; simp [initBatch]
  have hfin' : ∀ p ∈ sf.tasks, TPhase.isFinished p = true := by
    intro p hp
    exact List.all_eq_true.mp hfin p hp
  obtain ⟨p0, hp0⟩ : ∃ p, p ∈ sf.tasks := by
    cases hts : sf.tasks with
    | nil => rw [hts] at hlen; simp at hlen; omega
    | cons a l => exact ⟨a, List.mem_cons_self a l⟩
  obtain ⟨o0, ho0⟩ : ∃ o, p0 = TPhase.finished o := by
    have hf := hfin' p0 hp0
    cases p0 with
    | finished o => exact ⟨o, rfl⟩
    | needLoc => simp [TPhase.isFinished] at hf
    | waitLoc => simp [TPhase.isFinished] at hf
    | needRate t => simp [TPhase.isFinished] at hf
    | waitRate t => simp [TPhase.isFinished] at hf
  have hTI0 : TI cfg sf.g (TPhase.finished o0) := ho0 ▸ hInv.tasksOK p0 hp0
  refine ⟨?_, ?_, ?_, ?_, ?_⟩
  · rw [hInv.geoCount]
    exact countG_ne _ hTI0.2.1
  · rw [hInv.rateCount]
    cases sf.g.rateH <;> simp [countR]
  · intro lr hge hnee
    rw [hInv.rateCount]
    exact countR_ne _ (hTI0.2.2 lr hge hnee)
  · intro o ho
    exact (hInv.tasksOK _ ho).1
  · intro req key hv hp
    exact expectedOutcome_eq_convert cfg req key hv hp

/-- Witness for C1 (amended): two concurrent invocations (base USD,
geolocation resolving EUR) under a concrete complete schedule. -/
theorem c1_concurrent_dedup_witness :
    0 < 2 ∧
    ((runSched cfgW schedW (initBatch 2)).tasks.all TPhase.isFinished) = true ∧
    ((runSched cfgW schedW (initBatch 2)).g.geoCalls = 1 ∧
     (runSched cfgW schedW (initBatch 2)).g.rateCalls ≤ 1 ∧
     (∀ lr, geoRemoteResult cfgW = .ok lr → (lr.currencyCode == cfgW.base) = false →
       (runSched cfgW schedW (initBatch 2)).g.rateCalls = 1) ∧
     (∀ o, TPhase.finished o ∈ (runSched cfgW schedW (initBatch 2)).tasks →
       o = expectedOutcome cfgW) ∧
     (∀ req key, validateInput req = .ok (cfgW.base, none, key) →
       req.basePrice = cfgW.price →
       expectedOutcome cfgW = (convert req cfgW.env cfgW.now emptyCache).outcome)) :=
  ⟨by decide, by decide, c1_concurrent_dedup cfgW 2 (by decide) schedW (by decide)⟩

/-- Counterexample to C1 as stated: two concurrent coordinator
invocations with identical normalized inputs (base USD, no manual
currency), issued before any resolves, all of which complete — yet the
total number of remote rate calls is 0, not 1, because geolocation
resolves the base currency itself and the rate resolver short-circuits
(§4.4 step 1). -/
theorem c1_counterexample :
    ((runSched cfgC1x schedC1x (initBatch 2)).tasks.all TPhase.isFinished) = true ∧
    (runSched cfgC1x schedC1x (initBatch 2)).g.geoCalls = 1 ∧
    (runSched cfgC1x schedC1x (initBatch 2)).g.rateCalls = 0 := by decide

lemma validateInput_reqC2 : validateInput reqC2 = .ok ("USD", some "EUR", demoKey) := by
  simp only [validateInput, reqC2,
    show normalize "usd" = Except.ok "USD" from by decide,
    show normalize "EUR" = Except.ok "EUR" from by decide,
    show validateApiKey (some demoKey) = Except.ok demoKey from by decide,
    bind, Except.bind, Except.map, pure, Except.pure]
  rw [if_neg (by norm_num)]

lemma roundPrice_c2 : roundPrice "EUR" ((9999 : ℚ)/100 * (92/100)) = 9199/100 := by
  unfold roundPrice
  rw [if_neg (by decide)]
  norm_num [round_eq]

/-- C2: for basePrice 99.99, baseCurrency "usd", manualCurrency "EUR"
and an exchange rate of 0.92, `convert` succeeds with exactly
convertedPrice 91.99, localCurrency "EUR", baseCurrency "USD",
exchangeRate 0.92; the converted price is basePrice * rate rounded to 2
decimal places (EUR is not zero-decimal) and both returned codes are
the canonical uppercase forms of the inputs. -/
theorem c2_scenario :
    (convert reqC2 envC2 0 emptyCache).outcome =
      .ok ⟨9199/100, "EUR", "USD", 92/100⟩ ∧
    zeroDecimalCurrencies.contains "EUR" = false ∧
    roundPrice "EUR" ((9999 : ℚ)/100 * (92/100)) = 9199/100 ∧
    normalize "usd" = .ok "USD" ∧ normalize "EUR" = .ok "EUR" := by
  refine ⟨?_, by decide, roundPrice_c2, by decide, by decide⟩
  have h1 : (convert reqC2 envC2 0 emptyCache).outcome =
      .ok ⟨roundPrice "EUR" ((9999 : ℚ)/100 * (92/100)), "EUR", "USD", 92/100⟩ := by
    simp only [convert, validateInput_reqC2]
    rfl
  rw [h1, roundPrice_c2]

lemma validateApiKey_missing {k : Option String} (hk : k = none ∨ k = some "") :
    validateApiKey k = .error .missingApiKey := by
  rcases hk with h | h <;> rw [h]
  · rfl
  · decide

lemma validateInput_error_of_missing_key (req : ConversionRequest)
    (hk : req.apiKey = none ∨ req.apiKey = some "") :
    ∃ e, validateInput req = .error e ∧
      (∀ b, normalize req.baseCurrency = .ok b →
        (req.manualCurrency = none ∨
          ∃ m c, req.manualCurrency = some m ∧ normalize m = .ok c) →
        e = .missingApiKey) := by
  have hkey := validateApiKey_missing hk
  cases hb : normalize req.baseCurrency with
  | error e =>
    refine ⟨e, ?_, ?_⟩
    · simp only [validateInput, hb, bind, Except.bind]
    · intro b hb' _
      exact absurd hb' (by simp)
  | ok b =>
    cases hm : req.manualCurrency with
    | none =>
      refine ⟨.missingApiKey, ?_, fun _ _ _ => rfl⟩
      simp only [validateInput, hb, hm, hkey, bind, Except.bind, pure, Except.pure]
    | some m =>
      cases hmn : normalize m with
      | error e =>
        refine ⟨e, ?_, ?_⟩
        · simp only [validateInput, hb, hm, hmn, bind, Except.bind, Except.map]
        · intro b' _ hman
          rcases hman with h | ⟨m', c', hm', hc'⟩
          · exact absurd h (by simp)
          · rw [← Option.some.inj hm'] at hc'
            rw [hmn] at hc'
            exact absurd hc' (by simp)
      | ok c =>
        refine ⟨.missingApiKey, ?_, fun _ _ _ => rfl⟩
        simp only [validateInput, hb, hm, hmn, hkey, bind, Except.bind, Except.map, pure,
          Except.pure]

/-- C3 (amended): for every request whose apiKey is empty or undefined,
`convert` fails before any network call — zero geolocation calls, zero
rate calls, both caches untouched — with a validation-kind error; when
both currency inputs are well-formed that error is `MissingApiKey`
(when a currency input is malformed, `MalformedCurrencyCode` is
reported instead, §4.5 validating the currency codes first). -/
theorem c3_missing_api_key (req : ConversionRequest) (env : Env) (now : Nat) (st : CacheState)
    (hk : req.apiKey = none ∨ req.apiKey = some "") :
    (convert req env now st).geoCalls = 0 ∧
    (convert req env now st).rateCalls = 0 ∧
    (convert req env now st).state = st ∧
    (∃ e, (convert req env now st).outcome = .error e) ∧
    (∀ b, normalize req.baseCurrency = .ok b →
      (req.manualCurrency = none ∨
        ∃ m c, req.manualCurrency = some m ∧ normalize m = .ok c) →
      (convert req env now st).outcome = .error .missingApiKey) := by
  obtain ⟨e, hv, hmiss⟩ := validateInput_error_of_missing_key req hk
  have hc : convert req env now st = ⟨.error e, st, 0, 0⟩ := by
    simp only [convert, hv]
  refine ⟨by rw [hc], by rw [hc], by rw [hc], ⟨e, by rw [hc]⟩, ?_⟩
  intro b hb hman
  rw [hc, hmiss b hb hman]

/-- Witness for C3 (amended): a concrete request with empty apiKey and
well-formed currency codes. -/
theorem c3_missing_api_key_witness :
    ((⟨0, "usd", some "", none⟩ : ConversionRequest).apiKey = none ∨
      (⟨0, "usd", some "", none⟩ : ConversionRequest).apiKey = some "") ∧
    ((convert ⟨0, "usd", some "", none⟩ ⟨.transportFail, .transportFail⟩ 0 emptyCache).geoCalls = 0 ∧
     (convert ⟨0, "usd", some "", none⟩ ⟨.transportFail, .transportFail⟩ 0 emptyCache).rateCalls = 0 ∧
     (convert ⟨0, "usd", some "", none⟩ ⟨.transportFail, .transportFail⟩ 0 emptyCache).state = emptyCache ∧
     (∃ e, (convert ⟨0, "usd", some "", none⟩ ⟨.transportFail, .transportFail⟩ 0 emptyCache).outcome = .error e) ∧
     (∀ b, normalize "usd" = .ok b →
       ((⟨0, "usd", some "", none⟩ : ConversionRequest).manualCurrency = none ∨
         ∃ m c, (⟨0, "usd", some "", none⟩ : ConversionRequest).manualCurrency = some m ∧
           normalize m = .ok c) →
       (convert ⟨0, "usd", some "", none⟩ ⟨.transportFail, .transportFail⟩ 0 emptyCache).outcome =
         .error .missingApiKey)) :=
  ⟨Or.inr rfl,
   c3_missing_api_key ⟨0, "usd", some "", none⟩ ⟨.transportFail, .transportFail⟩ 0 emptyCache
     (Or.inr rfl)⟩

/-- Counterexample to C3 as stated: a request whose apiKey is the empty
string but whose baseCurrency is malformed fails with
`MalformedCurrencyCode`, not `MissingApiKey` (input validation
normalizes the currency codes before validating the key, §4.5), so
"fails with MissingApiKey" does not hold for every empty-key request. -/
theorem c3_counterexample :
    (convert ⟨0, "us4", some "", none⟩ ⟨.transportFail, .transportFail⟩ 0 emptyCache).outcome =
      .error .malformedCurrencyCode ∧
    ConvError.malformedCurrencyCode ≠ ConvError.missingApiKey := by
  constructor
  · decide
  · decide

/-- C5: for every pair of equal currency codes, `resolveRate` returns a
synthetic record with rate 1, leaves the cache untouched and performs
no network call — the short-circuit fires before any cache lookup or
provider request, whatever the cache or provider state. -/
theorem c5_same_currency_short_circuit (base key : String) (env : Env) (now : Nat)
    (st : CacheState) :
    resolveRate base base key env now st = (.ok ⟨base, base, 1, now⟩, st, 0) := by
  unfold resolveRate
  rw [if_pos (beq_self_eq_true base)]

lemma remoteLocate_calls (env : Env) (now : Nat) (st : CacheState) :
    (remoteLocate env now st).2.2 = 1 := by
  unfold remoteLocate
  cases hg : env.geo with
  | transportFail => rfl
  | ok copt =>
    cases copt with
    | none => rfl
    | some c =>
      cases hn : normalize c with
      | ok code => simp only [hn]
      | error e => simp only [hn]

lemma resolveLocation_miss (env : Env) (now : Nat) (st : CacheState)
    (h : st.locationCache = none ∨
      ∃ lr, st.locationCache = some lr ∧ ¬ freshAt lr.resolvedAt now locationTTL) :
    resolveLocation env now st = remoteLocate env now st := by
  rcases h with h | ⟨lr, hlr, hfr⟩
  · simp only [resolveLocation, h]
  · simp only [resolveLocation, hlr]
    rw [if_neg hfr]

/-- C6: `resolveLocation` serves an unexpired persistent record (age
below 24h) as-is with zero network calls; on an absent or expired
record it performs exactly one remote geolocation call and, on provider
success, overwrites the stored record with the freshly resolved one
carrying the current timestamp. -/
theorem c6_location_cache (env : Env) (now : Nat) (st : CacheState) :
    (∀ lr, st.locationCache = some lr → freshAt lr.resolvedAt now locationTTL →
      resolveLocation env now st = (.ok lr, st, 0)) ∧
    ((st.locationCache = none ∨
        ∃ lr, st.locationCache = some lr ∧ ¬ freshAt lr.resolvedAt now locationTTL) →
      (resolveLocation env now st).2.2 = 1 ∧
      (∀ c code, env.geo = .ok (some c) → normalize c = .ok code →
        resolveLocation env now st =
          (.ok ⟨code, now⟩, { st with locationCache := some ⟨code, now⟩ }, 1))) := by
  constructor
  · intro lr hlr hf
    simp only [resolveLocation, hlr]
    rw [if_pos hf]
  · intro h
    rw [resolveLocation_miss env now st h]
    refine ⟨remoteLocate_calls env now st, ?_⟩
    intro c code hc hcode
    simp only [remoteLocate, hc, hcode]

/-- Witness for C6: a fresh record at age 5ms is served from the cache;
the same record at age 24h is refreshed by one remote call whose result
overwrites it. -/
theorem c6_location_cache_witness :
    (resolveLocation ⟨.ok (some "usd"), .transportFail⟩ 5 ⟨some ⟨"EUR", 0⟩, []⟩ =
      (.ok ⟨"EUR", 0⟩, ⟨some ⟨"EUR", 0⟩, []⟩, 0)) ∧
    (resolveLocation ⟨.ok (some "usd"), .transportFail⟩ locationTTL ⟨some ⟨"EUR", 0⟩, []⟩ =
      (.ok ⟨"USD", locationTTL⟩, ⟨some ⟨"USD", locationTTL⟩, []⟩, 1)) :=
  ⟨(c6_location_cache ⟨.ok (some "usd"), .transportFail⟩ 5 ⟨some ⟨"EUR", 0⟩, []⟩).1
      ⟨"EUR", 0⟩ rfl (by decide),
   ((c6_location_cache ⟨.ok (some "usd"), .transportFail⟩ locationTTL
        ⟨some ⟨"EUR", 0⟩, []⟩).2 (Or.inr ⟨⟨"EUR", 0⟩, rfl, by decide⟩)).2
      "usd" "USD" rfl (by decide)⟩

/-- C7: when geolocation resolves the target to KPW and the rate
provider's supported set excludes KPW, `convert` fails with
`UnsupportedCurrency "KPW"` — a kind distinct from
`RateProviderFailure` — after exactly one geolocation call and exactly
one rate call (the failed lookup is not retried). -/
theorem c7_unsupported_currency (rates : List (String × ℚ)) (now : Nat)
    (hkpw : rates.find? (fun p => p.1 == "KPW") = none) :
    (convert reqC7 ⟨.ok (some "KPW"), .ok rates⟩ now emptyCache).outcome =
      .error (.unsupportedCurrency "KPW") ∧
    (convert reqC7 ⟨.ok (some "KPW"), .ok rates⟩ now emptyCache).geoCalls = 1 ∧
    (convert reqC7 ⟨.ok (some "KPW"), .ok rates⟩ now emptyCache).rateCalls = 1 ∧
    ConvError.unsupportedCurrency "KPW" ≠ ConvError.rateProviderFailure := by
  have hval : validateInput reqC7 = .ok ("USD", none, demoKey) := by decide
  have hloc : resolveLocation ⟨.ok (some "KPW"), .ok rates⟩ now emptyCache =
      (.ok ⟨"KPW", now⟩, ⟨some ⟨"KPW", now⟩, []⟩, 1) := by
    simp only [resolveLocation, emptyCache, remoteLocate,
      show normalize "KPW" = Except.ok "KPW" from by decide]
  have hrr : resolveRate "USD" "KPW" demoKey ⟨.ok (some "KPW"), .ok rates⟩ now
      ⟨some ⟨"KPW", now⟩, []⟩ =
      (.error (.unsupportedCurrency "KPW"), ⟨some ⟨"KPW", now⟩, []⟩, 1) := by
    unfold resolveRate
    rw [if_neg (by decide)]
    show remoteRate "USD" "KPW" ⟨.ok (some "KPW"), .ok rates⟩ now ⟨some ⟨"KPW", now⟩, []⟩ = _
    simp only [remoteRate, hkpw]
  have hconv : convert reqC7 ⟨.ok (some "KPW"), .ok rates⟩ now emptyCache =
      ⟨.error (.unsupportedCurrency "KPW"), ⟨some ⟨"KPW", now⟩, []⟩, 1, 1⟩ := by
    simp only [convert, hval, hloc, convertWithTarget, hrr]
  exact ⟨by rw [hconv], by rw [hconv], by rw [hconv], by decide⟩

/-- Witness for C7: a concrete supported-rate table without KPW. -/
theorem c7_unsupported_currency_witness :
    (convert reqC7 ⟨.ok (some "KPW"), .ok [("USD", 1), ("EUR", 92/100)]⟩ 0 emptyCache).outcome =
      .error (.unsupportedCurrency "KPW") ∧
    (convert reqC7 ⟨.ok (some "KPW"), .ok [("USD", 1), ("EUR", 92/100)]⟩ 0 emptyCache).geoCalls = 1 ∧
    (convert reqC7 ⟨.ok (some "KPW"), .ok [("USD", 1), ("EUR", 92/100)]⟩ 0 emptyCache).rateCalls = 1 ∧
    ConvError.unsupportedCurrency "KPW" ≠ ConvError.rateProviderFailure :=
  c7_unsupported_currency [("USD", 1), ("EUR", 92/100)] 0 (by decide)

lemma remoteLocate_error_state {env : Env} {now : Nat} {st : CacheState} {e : ConvError}
    {st' : CacheState} {k : Nat} (h : remoteLocate env now st = (.error e, st', k)) :
    st' = st := by
  unfold remoteLocate at h
  cases hg : env.geo with
  | transportFail =>
    rw [hg] at h
    injection h with h1 h2
    injection h2 with h2a h2b
    exact h2a.symm
  | ok copt =>
    cases copt with
    | none =>
      rw [hg] at h
      injection h with h1 h2
      injection h2 with h2a h2b
      exact h2a.symm
    | some c =>
      rw [hg] at h
      cases hn : normalize c with
      | ok code =>
        simp only [hn] at h
        injection h with h1 h2
        exact absurd h1 (by simp)
      | error e' =>
        simp only [hn] at h
        injection h with h1 h2
        injection h2 with h2a h2b
        exact h2a.symm

lemma resolveLocation_error_state {env : Env} {now : Nat} {st : CacheState} {e : ConvError}
    {st' : CacheState} {k : Nat} (h : resolveLocation env now st = (.error e, st', k)) :
    st' = st := by
  unfold resolveLocation at h
  cases hc : st.locationCache with
  | none =>
    rw [hc] at h
    exact remoteLocate_error_state h
  | some lr =>
    rw [hc] at h
    by_cases hf : freshAt lr.resolvedAt now locationTTL
    · simp only [if_pos hf] at h
      injection h with h1 h2
      exact absurd h1 (by simp)
    · simp only [if_neg hf] at h
      exact remoteLocate_error_state h

lemma resolveLocation_error_miss {env : Env} {now : Nat} {st : CacheState} {e : ConvError}
    {st' : CacheState} {k : Nat} (h : resolveLocation env now st = (.error e, st', k)) :
    st.locationCache = none ∨
      ∃ lr, st.locationCache = some lr ∧ ¬ freshAt lr.resolvedAt now locationTTL := by
  unfold resolveLocation at h
  cases hc : st.locationCache with
  | none => exact Or.inl rfl
  | some lr =>
    rw [hc] at h
    by_cases hf : freshAt lr.resolvedAt now locationTTL
    · simp only [if_pos hf] at h
      injection h with h1 h2
      exact absurd h1 (by simp)
    · exact Or.inr ⟨lr, rfl, hf⟩

lemma remoteRate_error_state {b t : String} {env : Env} {now : Nat} {st : CacheState}
    {e : ConvError} {st' : CacheState} {k : Nat}
    (h : remoteRate b t env now st = (.error e, st', k)) : st' = st := by
  unfold remoteRate at h
  cases hg : env.rate with
  | rateLimited ra =>
    rw [hg] at h
    injection h with h1 h2
    injection h2 with h2a h2b
    exact h2a.symm
  | transportFail =>
    rw [hg] at h
    injection h with h1 h2
    injection h2 with h2a h2b
    exact h2a.symm
  | ok rates =>
    rw [hg] at h
    cases hf : rates.find? (fun p => p.1 == t) with
    | some p =>
      simp only [hf] at h
      injection h with h1 h2
      exact absurd h1 (by simp)
    | none =>
      simp only [hf] at h
      injection h with h1 h2
      injection h2 with h2a h2b
      exact h2a.symm

lemma remoteRate_calls (b t : String) (env : Env) (now : Nat) (st : CacheState) :
    (remoteRate b t env now st).2.2 = 1 := by
  unfold remoteRate
  cases hg : env.rate with
  | rateLimited ra => rfl
  | transportFail => rfl
  | ok rates =>
    cases hf : rates.find? (fun p => p.1 == t) with
    | some p => simp only [hf]
    | none => simp only [hf]

lemma resolveRate_error_state {b t key : String} {env : Env} {now : Nat} {st : CacheState}
    {e : ConvError} {st' : CacheState} {k : Nat}
    (h : resolveRate b t key env now st = (.error e, st', k)) : st' = st := by
  unfold resolveRate at h
  by_cases hb : (b == t) = true
  · rw [if_pos hb] at h
    injection h with h1 h2
    exact absurd h1 (by simp)
  · rw [if_neg hb] at h
    cases hl : lookupRate st b t with
    | none =>
      rw [hl] at h
      exact remoteRate_error_state h
    | some r =>
      rw [hl] at h
      by_cases hf : freshAt r.resolvedAt now rateTTL
      · simp only [if_pos hf] at h
        injection h with h1 h2
        exact absurd h1 (by simp)
      · simp only [if_neg hf] at h
        exact remoteRate_error_state h

lemma resolveRate_error_shape {b t key : String} {env : Env} {now : Nat} {st : CacheState}
    {e : ConvError} {st' : CacheState} {k : Nat}
    (h : resolveRate b t key env now st = (.error e, st', k)) :
    (b == t) = false ∧
      (lookupRate st b t = none ∨
        ∃ r, lookupRate st b t = some r ∧ ¬ freshAt r.resolvedAt now rateTTL) := by
  unfold resolveRate at h
  by_cases hb : (b == t) = true
  · rw [if_pos hb] at h
    injection h with h1 h2
    exact absurd h1 (by simp)
  · refine ⟨by simpa using hb, ?_⟩
    rw [if_neg hb] at h
    cases hl : lookupRate st b t with
    | none => exact Or.inl rfl
    | some r =>
      rw [hl] at h
      by_cases hf : freshAt r.resolvedAt now rateTTL
      · simp only [if_pos hf] at h
        injection h with h1 h2
        exact absurd h1 (by simp)
      · exact Or.inr ⟨r, rfl, hf⟩

/-- C9: a failed remote lookup writes nothing: on any `resolveLocation`
failure the cache state is unchanged, on any `resolveRate` failure the
cache state is unchanged, and in both cases a later call at the same or
a later time re-attempts the remote lookup (exactly one remote call)
instead of observing a remembered failure. -/
theorem c9_failures_not_cached :
    (∀ env now st e st' k, resolveLocation env now st = (.error e, st', k) → st' = st) ∧
    (∀ b t key env now st e st' k,
      resolveRate b t key env now st = (.error e, st', k) → st' = st) ∧
    (∀ env env2 now now2 st e st' k, now ≤ now2 →
      resolveLocation env now st = (.error e, st', k) →
      (resolveLocation env2 now2 st').2.2 = 1) ∧
    (∀ b t key key2 env env2 now now2 st e st' k, now ≤ now2 →
      resolveRate b t key env now st = (.error e, st', k) →
      (resolveRate b t key2 env2 now2 st').2.2 = 1) := by
  refine ⟨?_, ?_, ?_, ?_⟩
  · intro env now st e st' k h
    exact resolveLocation_error_state h
  · intro b t key env now st e st' k h
    exact resolveRate_error_state h
  · intro env env2 now now2 st e st' k hle h
    have hst : st' = st := resolveLocation_error_state h
    subst hst
    have hmiss := resolveLocation_error_miss h
    have hmiss2 : st'.locationCache = none ∨
        ∃ lr, st'.locationCache = some lr ∧ ¬ freshAt lr.resolvedAt now2 locationTTL := by
      rcases hmiss with h0 | ⟨lr, hlr, hfr⟩
      · exact Or.inl h0
      · refine Or.inr ⟨lr, hlr, ?_⟩
        unfold freshAt at hfr ⊢
        omega
    rw [resolveLocation_miss env2 now2 st' hmiss2]
    exact remoteLocate_calls env2 now2 st'
  · intro b t key key2 env env2 now now2 st e st' k hle h
    have hst : st' = st := resolveRate_error_state h
    subst hst
    obtain ⟨hbt, hmiss⟩ := resolveRate_error_shape h
    unfold resolveRate
    rw [if_neg (by simp [hbt])]
    rcases hmiss with h0 | ⟨r, hr, hfr⟩
    · rw [h0]
      exact remoteRate_calls b t env2 now2 st'
    · simp only [hr]
      rw [if_neg (by unfold freshAt at hfr ⊢; omega)]
      exact remoteRate_calls b t env2 now2 st'

/-- Witness for C9: concrete transport failures on an empty cache,
re-attempted one millisecond later. -/
theorem c9_failures_not_cached_witness :
    (emptyCache = emptyCache) ∧
    (resolveLocation ⟨.ok (some "usd"), .transportFail⟩ 1 emptyCache).2.2 = 1 ∧
    (resolveRate "USD" "EUR" demoKey ⟨.transportFail, .ok [("USD", 1)]⟩ 1 emptyCache).2.2 = 1 :=
  ⟨c9_failures_not_cached.1 ⟨.transportFail, .transportFail⟩ 0 emptyCache
      .geolocationFailure emptyCache 1 (by decide),
   c9_failures_not_cached.2.2.1 ⟨.transportFail, .transportFail⟩ ⟨.ok (some "usd"), .transportFail⟩
      0 1 emptyCache .geolocationFailure emptyCache 1 (by decide) (by decide),
   c9_failures_not_cached.2.2.2 "USD" "EUR" demoKey demoKey ⟨.transportFail, .transportFail⟩
      ⟨.transportFail, .ok [("USD", 1)]⟩ 0 1 emptyCache .rateProviderFailure emptyCache 1
      (by decide) (by decide)⟩

/-- C10: in every facade output, the convertedPrice, localCurrency and
exchangeRate slots are null whenever an error is present or a cycle is
loading, and they are non-null exactly on a settled successful
conversion, carrying that success tuple's fields — so a non-null error
and a non-null convertedPrice never coexist. -/
theorem c10_output_nullability (phase : FacadePhase) (req : ConversionRequest) (env : Env)
    (now : Nat) (st : CacheState) :
    ((useCurrencyConverter phase req env now st).error ≠ none ∨
        (useCurrencyConverter phase req env now st).isLoading = true →
      (useCurrencyConverter phase req env now st).convertedPrice = none ∧
      (useCurrencyConverter phase req env now st).localCurrency = none ∧
      (useCurrencyConverter phase req env now st).exchangeRate = none) ∧
    ((useCurrencyConverter phase req env now st).convertedPrice ≠ none →
      phase = .settled ∧
      (useCurrencyConverter phase req env now st).error = none ∧
      (useCurrencyConverter phase req env now st).isLoading = false ∧
      ∃ s, (convert req env now st).outcome = .ok s ∧
        (useCurrencyConverter phase req env now st).convertedPrice = some s.convertedPrice ∧
        (useCurrencyConverter phase req env now st).localCurrency = some s.localCurrency ∧
        (useCurrencyConverter phase req env now st).exchangeRate = some s.exchangeRate) := by
  cases phase with
  | loading =>
    refine ⟨fun _ => ⟨rfl, rfl, rfl⟩, fun hc => absurd rfl hc⟩
  | settled =>
    cases ho : (convert req env now st).outcome with
    | ok s =>
      constructor
      · intro hbad
        rcases hbad with hbad | hbad
        · exact absurd (by simp [useCurrencyConverter, ho]) hbad
        · simp [useCurrencyConverter, ho] at hbad
      · intro _
        exact ⟨rfl, by simp [useCurrencyConverter, ho], by simp [useCurrencyConverter, ho],
          s, rfl, by simp [useCurrencyConverter, ho], by simp [useCurrencyConverter, ho],
          by simp [useCurrencyConverter, ho]⟩
    | error e =>
      constructor
      · intro _
        refine ⟨?_, ?_, ?_⟩ <;> simp [useCurrencyConverter, ho]
      · intro hc
        exact absurd (by simp [useCurrencyConverter, ho]) hc

/-- Witness for C10: a loading-phase output and a settled failure both
have all three data slots null. -/
theorem c10_output_nullability_witness :
    (useCurrencyConverter .loading ⟨0, "usd", some "", none⟩ ⟨.transportFail, .transportFail⟩ 0
        emptyCache).convertedPrice = none ∧
    (useCurrencyConverter .loading ⟨0, "usd", some "", none⟩ ⟨.transportFail, .transportFail⟩ 0
        emptyCache).localCurrency = none ∧
    (useCurrencyConverter .loading ⟨0, "usd", some "", none⟩ ⟨.transportFail, .transportFail⟩ 0
        emptyCache).exchangeRate = none :=
  (c10_output_nullability .loading ⟨0, "usd", some "", none⟩ ⟨.transportFail, .transportFail⟩ 0
    emptyCache).1 (Or.inr (by decide))

lemma toNat_ofNat_valid (n : Nat) (h : n < 55296) : (Char.ofNat n).toNat = n := by
  unfold Char.ofNat
  rw [dif_pos (Or.inl h : Nat.isValidChar n)]
  rfl

lemma toUpper_hi {c : Char} (h : 97 ≤ c.toNat ∧ c.toNat ≤ 122) :
    Char.toUpper c = Char.ofNat (c.toNat - 32) := by
  simp only [Char.toUpper]
  rw [if_pos h]

lemma toUpper_lo {c : Char} (h : ¬(97 ≤ c.toNat ∧ c.toNat ≤ 122)) :
    Char.toUpper c = c := by
  simp only [Char.toUpper]
  rw [if_neg h]

lemma toUpper_idem (c : Char) : Char.toUpper (Char.toUpper c) = Char.toUpper c := by
  by_cases h : 97 ≤ c.toNat ∧ c.toNat ≤ 122
  · have h2 : (Char.toUpper c).toNat = c.toNat - 32 := by
      rw [toUpper_hi h]
      exact toNat_ofNat_valid _ (by omega)
    exact toUpper_lo (by rw [h2]; omega)
  · rw [toUpper_lo h, toUpper_lo h]

lemma upcase_upcase (x : String) : upcase (upcase x) = upcase x := by
  unfold upcase
  apply congrArg String.mk
  show (x.data.map Char.toUpper).map Char.toUpper = x.data.map Char.toUpper
  rw [List.map_map]
  exact List.map_congr_left fun a _ => toUpper_idem a

lemma wsChar_of_alphaChar {c : Char} (h : alphaChar c = true) : wsChar c = false := by
  simp only [alphaChar, Bool.or_eq_true, Bool.and_eq_true, decide_eq_true_eq] at h
  simp only [wsChar, Bool.or_eq_false_iff, beq_eq_false_iff_ne]
  refine ⟨⟨⟨?_, ?_⟩, ?_⟩, ?_⟩ <;> omega

lemma dropWhile_of_all_alpha (l : List Char) (h : l.all alphaChar = true) :
    l.dropWhile wsChar = l := by
  cases l with
  | nil => rfl
  | cons a as =>
    have ha : alphaChar a = true := by
      rw [List.all_cons, Bool.and_eq_true] at h
      exact h.1
    rw [List.dropWhile_cons, wsChar_of_alphaChar ha]
    simp

lemma trimChars_of_all_alpha (l : List Char) (h : l.all alphaChar = true) :
    trimChars l = l := by
  unfold trimChars
  rw [dropWhile_of_all_alpha l h]
  have hrev : l.reverse.all alphaChar = true := by
    rw [List.all_eq_true] at h ⊢
    intro x hx
    exact h x (List.mem_reverse.mp hx)
  rw [dropWhile_of_all_alpha l.reverse hrev]
  exact List.reverse_reverse l

lemma normalize_ok_shape {s c : String} (h : normalize s = .ok c) :
    c = upcase (wtrim s) ∧ isValidCode c = true := by
  simp only [normalize] at h
  by_cases hv : isValidCode (upcase (wtrim s)) = true
  · rw [if_pos hv] at h
    have hc : upcase (wtrim s) = c := Except.ok.inj h
    exact ⟨hc.symm, hc ▸ hv⟩
  · rw [if_neg hv] at h
    exact absurd h (by simp)

lemma map_toUpper_forall2 {l1 l2 : List Char}
    (h : List.Forall₂ (fun a b => Char.toUpper a = Char.toUpper b) l1 l2) :
    l1.map Char.toUpper = l2.map Char.toUpper := by
  induction h with
  | nil => rfl
  | cons hab htail ih => simp [List.map_cons, hab, ih]

/-- C4: `normalize` is case-insensitive — any two inputs whose trimmed
characters agree up to letter case (and surrounding whitespace)
normalize identically; it is idempotent — re-normalizing a canonical
output returns it unchanged; its canonical value is exactly the
trimmed, upper-cased input, which satisfies the 3-letter alphabetic
pattern; and any input whose trimmed, upper-cased form fails that
pattern is rejected with `MalformedCurrencyCode`. -/
theorem c4_normalize_canonical :
    (∀ s1 s2 : String,
      List.Forall₂ (fun a b => Char.toUpper a = Char.toUpper b)
        (wtrim s1).data (wtrim s2).data →
      normalize s1 = normalize s2) ∧
    (∀ s c : String, normalize s = .ok c → normalize c = .ok c) ∧
    (∀ s c : String, normalize s = .ok c → c = upcase (wtrim s) ∧ isValidCode c = true) ∧
    (∀ s : String, isValidCode (upcase (wtrim s)) = false →
      normalize s = .error .malformedCurrencyCode) := by
  refine ⟨?_, ?_, ?_, ?_⟩
  · intro s1 s2 h
    have hu : upcase (wtrim s1) = upcase (wtrim s2) := by
      unfold upcase
      exact congrArg String.mk (map_toUpper_forall2 h)
    simp only [normalize, hu]
  · intro s c h
    obtain ⟨hc, hv⟩ := normalize_ok_shape h
    have hall : c.data.all alphaChar = true := by
      simp only [isValidCode, Bool.and_eq_true] at hv
      exact hv.2
    have htrim : wtrim c = c := by
      unfold wtrim
      rw [trimChars_of_all_alpha c.data hall]
    have hup : upcase c = c := by
      rw [hc]
      exact upcase_upcase (wtrim s)
    simp only [normalize, htrim, hup, hv, if_true]
  · intro s c h
    exact normalize_ok_shape h
  · intro s hv
    simp only [normalize, hv]
    rw [if_neg Bool.false_ne_true]

/-- Witness for C4: "usd " and " USD" collapse to one canonical value;
"usd" normalizes to the canonical "USD" which re-normalizes to itself;
"u$d" fails the pattern. -/
theorem c4_normalize_canonical_witness :
    (normalize "usd " = normalize " USD") ∧
    (normalize "USD" = .ok "USD") ∧
    ("USD" = upcase (wtrim "usd") ∧ isValidCode "USD" = true) ∧
    (normalize "u$d" = .error .malformedCurrencyCode) :=
  ⟨c4_normalize_canonical.1 "usd " " USD"
      (.cons (by decide) (.cons (by decide) (.cons (by decide) .nil))),
   c4_normalize_canonical.2.1 "usd" "USD" (by decide),
   c4_normalize_canonical.2.2.1 "usd" "USD" (by decide),
   c4_normalize_canonical.2.2.2 "u$d" (by decide)⟩

lemma convertWithTarget_rateCalls (price : ℚ) (b t k : String) (env : Env) (now : Nat)
    (st : CacheState) (g : Nat) :
    (convertWithTarget price b t k env now st g).rateCalls =
      (resolveRate b t k env now st).2.2 := by
  unfold convertWithTarget
  rcases hrr : resolveRate b t k env now st with ⟨r, st2, rc⟩
  cases r <;> rfl

/-- C8 (amended): for any ordered pair of distinct normalized codes
(base, target), a first conversion on a cold cache performs one
rate-provider call; a second conversion within the 1-hour TTL of the
stored RateRecord performs none and reproduces the first outcome; a
third conversion issued once the TTL has elapsed performs a second
rate-provider call. -/
theorem c8_rate_ttl (rawBase rawTarget key b c : String) (price rho : ℚ)
    (rates : List (String × ℚ)) (geo : GeoResponse) (t0 t1 t2 : Nat)
    (hb : normalize rawBase = .ok b) (hc : normalize rawTarget = .ok c)
    (hbc : b ≠ c) (hk : validateApiKey (some key) = .ok key)
    (hprice : ¬(price < 0))
    (hfind : rates.find? (fun p => p.1 == c) = some (c, rho))
    (ht1 : t1 - t0 < rateTTL) (ht2 : rateTTL ≤ t2 - t0) :
    (convertThrice ⟨price, rawBase, some key, some rawTarget⟩ ⟨geo, .ok rates⟩
        t0 t1 t2).1.rateCalls = 1 ∧
    (convertThrice ⟨price, rawBase, some key, some rawTarget⟩ ⟨geo, .ok rates⟩
        t0 t1 t2).2.1.rateCalls = 0 ∧
    (convertThrice ⟨price, rawBase, some key, some rawTarget⟩ ⟨geo, .ok rates⟩
        t0 t1 t2).2.1.outcome =
      (convertThrice ⟨price, rawBase, some key, some rawTarget⟩ ⟨geo, .ok rates⟩
        t0 t1 t2).1.outcome ∧
    (convertThrice ⟨price, rawBase, some key, some rawTarget⟩ ⟨geo, .ok rates⟩
        t0 t1 t2).2.2.rateCalls = 1 := by
  have hval : validateInput ⟨price, rawBase, some key, some rawTarget⟩ =
      .ok (b, some c, key) := by
    simp only [validateInput, hb, hc, hk, bind, Except.bind, Except.map, pure, Except.pure]
    rw [if_neg hprice]
  have hbeq : (b == c) = false := by
    rw [beq_eq_false_iff_ne]; exact hbc
  have hrr1 : resolveRate b c key ⟨geo, .ok rates⟩ t0 emptyCache =
      (.ok ⟨b, c, rho, t0⟩, ⟨none, [((b, c), ⟨b, c, rho, t0⟩)]⟩, 1) := by
    unfold resolveRate
    rw [if_neg (by rw [hbeq]; exact Bool.false_ne_true)]
    show remoteRate b c ⟨geo, .ok rates⟩ t0 emptyCache = _
    simp only [remoteRate, hfind, storeRate, emptyCache, List.filter_nil]
  have h1 : convert ⟨price, rawBase, some key, some rawTarget⟩ ⟨geo, .ok rates⟩ t0 emptyCache =
      ⟨.ok ⟨roundPrice c (price * rho), c, b, rho⟩,
        ⟨none, [((b, c), ⟨b, c, rho, t0⟩)]⟩, 0, 1⟩ := by
    simp only [convert, hval, convertWithTarget, hrr1]
  have hlook : lookupRate ⟨none, [((b, c), ⟨b, c, rho, t0⟩)]⟩ b c = some ⟨b, c, rho, t0⟩ := by
    simp [lookupRate]
  have hrr2 : resolveRate b c key ⟨geo, .ok rates⟩ t1 ⟨none, [((b, c), ⟨b, c, rho, t0⟩)]⟩ =
      (.ok ⟨b, c, rho, t0⟩, ⟨none, [((b, c), ⟨b, c, rho, t0⟩)]⟩, 0) := by
    unfold resolveRate
    rw [if_neg (by rw [hbeq]; exact Bool.false_ne_true)]
    simp only [hlook]
    rw [if_pos (show freshAt t0 t1 rateTTL from ht1)]
  have h2 : convert ⟨price, rawBase, some key, some rawTarget⟩ ⟨geo, .ok rates⟩ t1
      ⟨none, [((b, c), ⟨b, c, rho, t0⟩)]⟩ =
      ⟨.ok ⟨roundPrice c (price * rho), c, b, rho⟩,
        ⟨none, [((b, c), ⟨b, c, rho, t0⟩)]⟩, 0, 0⟩ := by
    simp only [convert, hval, convertWithTarget, hrr2]
  have hrr3 : (resolveRate b c key ⟨geo, .ok rates⟩ t2
      ⟨none, [((b, c), ⟨b, c, rho, t0⟩)]⟩).2.2 = 1 := by
    unfold resolveRate
    rw [if_neg (by rw [hbeq]; exact Bool.false_ne_true)]
    simp only [hlook]
    rw [if_neg (show ¬ freshAt t0 t2 rateTTL from by unfold freshAt; omega)]
    exact remoteRate_calls b c ⟨geo, .ok rates⟩ t2 _
  have h3 : (convert ⟨price, rawBase, some key, some rawTarget⟩ ⟨geo, .ok rates⟩ t2
      ⟨none, [((b, c), ⟨b, c, rho, t0⟩)]⟩).rateCalls = 1 := by
    simp only [convert, hval]
    rw [convertWithTarget_rateCalls]
    exact hrr3
  refine ⟨?_, ?_, ?_, ?_⟩
  · simp only [convertThrice, h1]
  · simp only [convertThrice, h1, h2]
  · simp only [convertThrice, h1, h2]
  · simp only [convertThrice, h1, h2]
    exact h3

/-- Witness for C8 (amended): USD→EUR at 0.92, conversions at 0ms,
1000ms and exactly one hour. -/
theorem c8_rate_ttl_witness :
    (convertThrice ⟨5, "usd", some demoKey, some "eur"⟩ ⟨.transportFail, .ok [("EUR", 92/100)]⟩
        0 1000 rateTTL).1.rateCalls = 1 ∧
    (convertThrice ⟨5, "usd", some demoKey, some "eur"⟩ ⟨.transportFail, .ok [("EUR", 92/100)]⟩
        0 1000 rateTTL).2.1.rateCalls = 0 ∧
    (convertThrice ⟨5, "usd", some demoKey, some "eur"⟩ ⟨.transportFail, .ok [("EUR", 92/100)]⟩
        0 1000 rateTTL).2.1.outcome =
      (convertThrice ⟨5, "usd", some demoKey, some "eur"⟩ ⟨.transportFail, .ok [("EUR", 92/100)]⟩
        0 1000 rateTTL).1.outcome ∧
    (convertThrice ⟨5, "usd", some demoKey, some "eur"⟩ ⟨.transportFail, .ok [("EUR", 92/100)]⟩
        0 1000 rateTTL).2.2.rateCalls = 1 :=
  c8_rate_ttl "usd" "eur" demoKey "USD" "EUR" 5 (92/100) [("EUR", 92/100)] .transportFail
    0 1000 rateTTL (by decide) (by decide) (by decide) (by decide) (by decide) rfl
    (by decide) (by decide)

/-- Counterexample to C8 as stated: for the ordered pair (USD, USD) the
first conversion succeeds via the rate short-circuit with no
rate-provider call, so the third conversion after the TTL also performs
no rate-provider call — not the claimed second call. -/
theorem c8_counterexample :
    outcomeOk (convertThrice ⟨5, "USD", some demoKey, some "USD"⟩
        ⟨.transportFail, .transportFail⟩ 0 1 rateTTL).1.outcome = true ∧
    (convertThrice ⟨5, "USD", some demoKey, some "USD"⟩
        ⟨.transportFail, .transportFail⟩ 0 1 rateTTL).1.rateCalls = 0 ∧
    (convertThrice ⟨5, "USD", some demoKey, some "USD"⟩
        ⟨.transportFail, .transportFail⟩ 0 1 rateTTL).2.1.rateCalls = 0 ∧
    (convertThrice ⟨5, "USD", some demoKey, some "USD"⟩
        ⟨.transportFail, .transportFail⟩ 0 1 rateTTL).2.2.rateCalls = 0 := by
  refine ⟨?_, ?_, ?_, ?_⟩ <;> decide

/-- Witness for C5: a USD→USD request against a dead provider and a
cache holding a conflicting stale entry still yields rate 1 with no
call and no state change. -/
theorem c5_same_currency_short_circuit_witness :
    resolveRate "USD" "USD" demoKey ⟨.transportFail, .transportFail⟩ 7
        ⟨none, [(("USD", "USD"), ⟨"USD", "USD", 2, 0⟩)]⟩ =
      (.ok ⟨"USD", "USD", 1, 7⟩, ⟨none, [(("USD", "USD"), ⟨"USD", "USD", 2, 0⟩)]⟩, 0) :=
  c5_same_currency_short_circuit "USD" demoKey ⟨.transportFail, .transportFail⟩ 7
    ⟨none, [(("USD", "USD"), ⟨"USD", "USD", 2, 0⟩)]⟩

end CurrencyLocalizer
